import Mathlib

/-!
Verification of the CBC (Complete Blood Count) ingestion, normalization and
prediction-reporting pipeline.

The definitions below are a shallow embedding of the Python source:
  * `app/ai/cbc/predict.py`   — alias resolution, schema normalization,
    clinical report synthesis, batch annotation;
  * `app/services/ai_service.py` — orientation detection, extension dispatch,
    the `CBCPredictionService` entry points `predict_single`/`predict_batch`.

Pandas cell values are modelled by `CBC.Value` (a number, a string, or the
missing marker NaN); a pandas `DataFrame` is modelled column-wise by
`CBC.DataFrame` (named columns plus an explicit row index).  Machine floats
are modelled by `ℚ`.  Python exceptions are modelled by `Except CBC.PyError`.
-/

namespace CBC

/-- A pandas cell: a number, a string, or the missing value (NaN/None). -/
inductive Value where
  | num (q : ℚ)
  | str (s : String)
  | nan
deriving DecidableEq, Repr

/-- Characters removed by Python's `str.strip()`. -/
def pyWhitespace (c : Char) : Bool :=
  c = ' ' || c = '\t' || c = '\n' || c = '\r' || c = '\x0b' || c = '\x0c'

/-- Python `str.strip()`. -/
def pyStrip (s : String) : String :=
  String.mk (((s.toList.dropWhile pyWhitespace).reverse.dropWhile pyWhitespace).reverse)

/-- Python `str.lower()` (ASCII, which covers every name the pipeline uses). -/
def pyLower (s : String) : String :=
  String.mk (s.toList.map Char.toLower)

/-- Python `str.upper()` (ASCII). -/
def pyUpper (s : String) : String :=
  String.mk (s.toList.map Char.toUpper)

/-- The `norm` from `predict.py`:
`str(s).strip().lower().replace(' ','').replace('.','').replace('-','').replace('_','')`.
Removing all occurrences of the four single characters is implemented as one
character filter, which is equivalent to the chain of `replace` calls. -/
def norm (s : String) : String :=
  String.mk ((pyLower (pyStrip s)).toList.filter
    (fun c => !(c = ' ' || c = '.' || c = '-' || c = '_')))

/-- The `ALIASES` table from `predict.py`, in declaration order
(Python dicts preserve insertion order). -/
def ALIASES : List (String × List String) :=
  [ ("TLC",  ["tlc", "wbc", "white blood cells", "whitebloodcells", "w.b.c"]),
    ("PCV",  ["pcv", "hct", "hematocrit"]),
    ("RBC",  ["rbc", "red blood cells", "redbloodcells"]),
    ("HGB",  ["hgb", "hb", "hemoglobin", "haemoglobin"]),
    ("MCV",  ["mcv"]),
    ("MCH",  ["mch"]),
    ("MCHC", ["mchc"]),
    ("PLT",  ["plt", "platelets", "platelet", "platelet count"]),
    ("RDW",  ["rdw", "rdw-cv", "rdw_cv", "rdwcv", "rdw_sd", "rdwsd"]),
    ("Age",  ["age", "years", "age (y)"]),
    ("Sex",  ["sex", "gender", "m/f", "male/female"]),
    ("ID",   ["id", "sample id", "sampleid", "record id", "patient id", "no"]) ]

/-- Python dict assignment `d[k] = v` on an association list: overwrite in
place if the key is present (order preserved), otherwise append. -/
def dictInsert (d : List (String × String)) (k v : String) : List (String × String) :=
  if d.any (fun p => p.1 = k) then
    d.map (fun p => if p.1 = k then (k, v) else p)
  else
    d ++ [(k, v)]

/-- The inner loop of `build_rename_map`: scan the input columns, in input
order, for the first whose normalized form equals `vkey`. -/
def scanCols (cols : List String) (vkey : String) : Option String :=
  cols.find? (fun c => norm c = vkey)

/-- The per-canonical-name loop of `build_rename_map`: for each variant (in
declared order) scan the columns; record the first match; after each variant,
stop as soon as the canonical name occurs among the mapped values. -/
def addVariants (cols : List String) (std : String) :
    List String → List (String × String) → List (String × String)
  | [], d => d
  | v :: vs, d =>
    match scanCols cols (norm v) with
    | some c =>
      let d' := dictInsert d c std
      if (d'.map Prod.snd).contains std then d' else addVariants cols std vs d'
    | none =>
      if (d.map Prod.snd).contains std then d else addVariants cols std vs d

/-- Fold of `addVariants` over the alias table (the outer loop of
`build_rename_map`). -/
def buildRenameMapAux (cols : List String) :
    List (String × List String) → List (String × String) → List (String × String)
  | [], d => d
  | (std, vs) :: rest, d => buildRenameMapAux cols rest (addVariants cols std vs d)

/-- The `build_rename_map` from `predict.py`. -/
def build_rename_map (cols : List String) : List (String × String) :=
  buildRenameMapAux cols ALIASES []

/-- The `df.rename(columns=m)` lookup: a column named `c` is renamed to `m[c]`
when present, and passes through unchanged otherwise. -/
def lookupRename (d : List (String × String)) (c : String) : String :=
  match d.find? (fun p => p.1 = c) with
  | some p => p.2
  | none => c

/-- Digit string to natural number (helper for `parseNum`). -/
def digitsToNat (cs : List Char) : ℕ :=
  cs.foldl (fun a c => a * 10 + (c.toNat - 48)) 0

/-- Finite numeric parsing as performed by Python's `float()` / pandas
`to_numeric` on a string cell: optional surrounding whitespace, optional
sign, decimal digits with an optional fractional part and an optional
decimal exponent.  Unparseable strings yield `none` (the Python call raises,
which every caller in the source catches or routes through an `errors=`
mode).  The IEEE specials (`inf`/`infinity` strings) have no counterpart in
this ℚ-valued model and are treated as non-numeric; the NaN spellings that
`float()` accepts are handled separately in `toNumericCell` and `_val`.  No
claim exercises infinities. -/
def parseNum (s : String) : Option ℚ :=
  let t := (pyStrip s).toList
  let signRest : ℤ × List Char :=
    match t with
    | '-' :: cs => (-1, cs)
    | '+' :: cs => (1, cs)
    | cs => (1, cs)
  let sgn := signRest.1
  let intPart := signRest.2.takeWhile Char.isDigit
  let rest1 := signRest.2.drop intPart.length
  let fracRest : List Char × List Char :=
    match rest1 with
    | '.' :: r => (r.takeWhile Char.isDigit, r.drop (r.takeWhile Char.isDigit).length)
    | _ => ([], rest1)
  let frac := fracRest.1
  let rest2 := fracRest.2
  if intPart.isEmpty && frac.isEmpty then none
  else
    let mantNum : ℕ := digitsToNat intPart * 10 ^ frac.length + digitsToNat frac
    match rest2 with
    | [] => some (mkRat (sgn * (mantNum : ℤ)) (10 ^ frac.length))
    | e :: r3 =>
      if e = 'e' ∨ e = 'E' then
        let expNeg : Bool × List Char :=
          match r3 with
          | '-' :: cs => (true, cs)
          | '+' :: cs => (false, cs)
          | cs => (false, cs)
        let expDigits := expNeg.2.takeWhile Char.isDigit
        if expDigits.isEmpty || !(expNeg.2.drop expDigits.length).isEmpty then none
        else if expNeg.1 then
          some (mkRat (sgn * (mantNum : ℤ)) (10 ^ frac.length * 10 ^ digitsToNat expDigits))
        else
          some (mkRat (sgn * ((mantNum * 10 ^ digitsToNat expDigits : ℕ) : ℤ))
            (10 ^ frac.length))
      else none

/-- The NaN spellings accepted by Python's `float()` (case-insensitive,
optionally signed). -/
def isNaNString (s : String) : Bool :=
  let t := pyLower (pyStrip s)
  t = "nan" || t = "+nan" || t = "-nan"

/-- A pandas DataFrame, modelled column-wise: named columns (in column order)
plus the explicit row index. -/
structure DataFrame where
  cols : List (String × List Value)
  index : List ℕ
deriving DecidableEq, Repr

/-- The column names of a DataFrame, in order. -/
def names (df : DataFrame) : List String := df.cols.map Prod.fst

/-- Number of rows (the length of the index). -/
def nRows (df : DataFrame) : ℕ := df.index.length

/-- The values of the column named `n` (first such column; empty if absent). -/
def colVals (df : DataFrame) (n : String) : List Value :=
  match df.cols.find? (fun p => p.1 = n) with
  | some p => p.2
  | none => []

/-- The cell at row position `i` of the column named `n`. -/
def cellD (df : DataFrame) (n : String) (i : ℕ) : Value :=
  (colVals df n).getD i .nan

/-- The `df.rename(columns=build_rename_map(df.columns))` from
`prepare_dataframe_for_inference`. -/
def renameStep (df : DataFrame) : DataFrame :=
  { df with cols := df.cols.map (fun p => (lookupRename (build_rename_map (names df)) p.1, p.2)) }

/-- A pandas column has `object` dtype exactly when it holds non-numeric
entries; in this model, when some cell is a string. -/
def isObjectDtype (col : List Value) : Bool :=
  col.any (fun v => match v with | .str _ => true | _ => false)

/-- The string branch of `normalize_sex_column`:
`str(x).strip().upper()` mapped through `{F,FEMALE,0 -> 0, M,MALE,1 -> 1}`,
unmapped values becoming missing (`.map` then `to_numeric(errors='coerce')`). -/
def sexStrMap (s : String) : Value :=
  let u := pyUpper (pyStrip s)
  if u = "F" ∨ u = "FEMALE" ∨ u = "0" then .num 0
  else if u = "M" ∨ u = "MALE" ∨ u = "1" then .num 1
  else .nan

/-- The distinct non-missing numeric values of a column
(`pd.Series(series.dropna().unique())`). -/
def distinctNums (col : List Value) : List ℚ :=
  (col.filterMap (fun v => match v with | .num q => some q | _ => none)).dedup

/-- Python `set(a) == set(b)` on the value lists. -/
def eqAsSet (d s : List ℚ) : Bool :=
  d.all (fun q => s.contains q) && s.all (fun q => d.contains q)

/-- One cell under `pd.to_numeric`: numbers and NaN pass through; the empty
string is converted to NaN (`maybe_convert_numeric` with its default
`convert_empty`), a string `float()` reads as NaN becomes NaN, and other
strings parse to a number or fail. -/
def toNumericCell (v : Value) : Option Value :=
  match v with
  | .num q => some (.num q)
  | .nan => some .nan
  | .str s =>
    if s = "" then some .nan
    else if isNaNString s then some .nan
    else (parseNum s).map .num

/-- The `pd.to_numeric(col, errors='coerce')`: cells that fail to parse become
missing. -/
def toNumericCoerce (col : List Value) : List Value :=
  col.map (fun v => (toNumericCell v).getD .nan)

/-- Parse a whole column cell-by-cell, failing if any cell fails. -/
def toNumericColumn : List Value → Option (List Value)
  | [] => some []
  | v :: t =>
    match toNumericCell v, toNumericColumn t with
    | some w, some wt => some (w :: wt)
    | _, _ => none

/-- The `pd.to_numeric(col, errors='ignore')`: the column converts only when
every cell parses; otherwise the input column is returned unchanged. -/
def toNumericIgnore (col : List Value) : List Value :=
  match toNumericColumn col with
  | some parsed => parsed
  | none => col

/-- The `normalize_sex_column` from `predict.py`.  In the object-dtype branch a
numeric cell is rendered through `str()`; this model covers the int-valued
rendering (`str(0)='0'`, `str(1)='1'`), the only non-string case the mapped
dictionary can hit. -/
def normalize_sex_column (col : List Value) : List Value :=
  if isObjectDtype col then
    col.map (fun v => match v with
      | .str s => sexStrMap s
      | .nan => .nan
      | .num q => if q = 0 then .num 0 else if q = 1 then .num 1 else .nan)
  else
    let vals := distinctNums col
    if eqAsSet vals [0, 1] then col
    else if eqAsSet vals [1, 2] then
      col.map (fun v => match v with | .num q => .num (q - 1) | w => w)
    else toNumericCoerce col

/-- The `if 'Sex' in df.columns: df['Sex'] = normalize_sex_column(df['Sex'])`
step of `prepare_dataframe_for_inference`. -/
def sexStep (df : DataFrame) : DataFrame :=
  if (names df).contains "Sex" then
    { df with cols := df.cols.map (fun p =>
        if p.1 = "Sex" then (p.1, normalize_sex_column p.2) else p) }
  else df

/-- The `for c in df.columns: if c != 'Diagnosis': df[c] = pd.to_numeric(df[c],
errors='ignore')` step. -/
def numericStep (df : DataFrame) : DataFrame :=
  { df with cols := df.cols.map (fun p =>
      if p.1 ≠ "Diagnosis" then (p.1, toNumericIgnore p.2) else p) }

/-- Rename, Sex normalization and numeric coercion, in source order. -/
def transformSteps (df : DataFrame) : DataFrame :=
  numericStep (sexStep (renameStep df))

/-- The `[c for c in used_features if c not in df.columns]`. -/
def missingFeatures (df : DataFrame) (used_features : List String) : List String :=
  used_features.filter (fun c => !(names df).contains c)

/-- Row position `i` has no missing value in any required feature column
(the complement of the `dropna(subset=used_features)` drop condition). -/
def rowComplete (df : DataFrame) (used_features : List String) (i : ℕ) : Bool :=
  used_features.all (fun f => cellD df f i ≠ .nan)

/-- The row positions that survive `dropna(subset=used_features)`. -/
def keepIdx (df : DataFrame) (used_features : List String) : List ℕ :=
  (List.range (nRows df)).filter (rowComplete df used_features)

/-- Restrict a DataFrame to the given row positions (keeping their original
index labels). -/
def selectRows (df : DataFrame) (idxs : List ℕ) : DataFrame :=
  { cols := df.cols.map (fun p => (p.1, idxs.map (fun i => p.2.getD i .nan))),
    index := idxs.map (fun i => df.index.getD i 0) }

/-- The `reset_index(drop=True)`: the index becomes the dense 0-based range. -/
def resetIndex (df : DataFrame) : DataFrame :=
  { df with index := List.range df.index.length }

/-- The typed failure conditions of the pipeline.  `schemaError` carries the
missing-column list rendered into `"Missing required columns: ..."`;
`emptyResultError` is `"No valid rows for inference ..."`; `typeError` is
Python's wrong-argument-count `TypeError` (expected and received counts);
`unsupportedFormat` carries the full message of the unsupported-extension
`ValueError`. -/
inductive PyError where
  | schemaError (missing : List String)
  | emptyResultError
  | typeError (expected got : ℕ)
  | unsupportedFormat (msg : String)
deriving DecidableEq, Repr

/-- The `prepare_dataframe_for_inference` from `predict.py`.  The source's third
parameter `allow_hgb_heuristic` is never read in the function body, so it is
omitted here (`predict_single` passes the scaler object in that position,
which is therefore ignored). -/
def prepare_dataframe_for_inference (raw_df : DataFrame) (used_features : List String) :
    Except PyError DataFrame :=
  let df := transformSteps raw_df
  let missing := missingFeatures df used_features
  if missing ≠ [] then .error (.schemaError missing)
  else
    let df_model := resetIndex (selectRows df (keepIdx df used_features))
    if nRows df_model = 0 then .error .emptyResultError
    else .ok df_model

/-- A row handed to the report synthesizer: a dict / pandas Series, as an
association list. -/
abbrev Row := List (String × Value)

/-- Dict lookup `row.get(c)` (first binding). -/
def rowLookup (row : Row) (c : String) : Option Value :=
  (row.find? (fun p => p.1 = c)).map Prod.snd

/-- Dict assignment `row[k] = v`: overwrite in place, else append. -/
def rowSet (r : Row) (k : String) (v : Value) : Row :=
  if r.any (fun p => p.1 = k) then r.map (fun p => if p.1 = k then (k, v) else p)
  else r ++ [(k, v)]

/-- The `_val` from `predict.py`: `float(row[col]) if pd.notna(row.get(col, nan))
else nan`, with any exception (e.g. `float` of an unparseable string) caught
and turned into NaN.  `none` models NaN; it covers both a string on which
`float` raises and a string `float` reads as NaN, since either way `_val`
produces NaN. -/
def _val (row : Row) (col : String) : Option ℚ :=
  match rowLookup row col with
  | none => none
  | some .nan => none
  | some (.num q) => some q
  | some (.str s) => parseNum s

/-- The `_anemia_phenotype` from `predict.py`. -/
def _anemia_phenotype (row : Row) : String × List String :=
  let mcv := _val row "MCV"
  let mchc := _val row "MCHC"
  let rdw := _val row "RDW"
  let phenotype :=
    match mcv with
    | none => "غير محدد"
    | some q =>
      if q < 80 then "Microcytic Anemia (often iron deficiency)"
      else if q > 100 then
        "Macrocytic Anemia (may indicate B12/folate deficiency or other causes)"
      else
        "Normocytic Anemia (may be related to chronic disease/acute bleeding/kidney issues)"
  let hints :=
    (match mchc with
     | some q => if q < 32 then ["Hypochromia (supports iron deficiency)"] else []
     | none => [])
    ++
    (match rdw with
     | some q => if q > mkRat 145 10 then  -- 14.5
         ["Elevated RDW → significant variation in cell size"] else []
     | none => [])
  (phenotype, hints)

/-- Python `"%.1f"`-style rendering used by `build_report`
(`f"{x:.1f}"`; modelled with half-up decimal rounding). -/
def fmt1 (q : ℚ) : String :=
  let n : ℤ := round (q * 10)
  let sign := if n < 0 then "-" else ""
  sign ++ toString (n.natAbs / 10) ++ "." ++ toString (n.natAbs % 10)

/-- Python `int()` truncation toward zero. -/
def pyTruncInt (q : ℚ) : ℤ := if 0 ≤ q then ⌊q⌋ else -(⌊-q⌋)

/-- The `int()` of a cell.  Callers of `build_report` always store a numeric 0/1
label under `Predicted_Anemia`; non-numeric cells are not exercised. -/
def pyIntOfValue (v : Value) : ℤ :=
  match v with
  | .num q => pyTruncInt q
  | _ => 0

/-- The MCV-dependent `extra_tests` block of `build_report` (lines 180-196):
empty when MCV is missing. -/
def mcvExtraTests (mcv : Option ℚ) : List String :=
  match mcv with
  | none => []
  | some q =>
    if q < 80 then
      ["Fecal occult blood test (FOBT) based on age and symptoms",
       "Evaluate for uterine bleeding/malabsorption if needed"]
    else if q > 100 then
      ["Vitamin B12 and folate levels",
       "Thyroid function tests (TSH)",
       "Liver function tests (LFTs)"]
    else
      ["Kidney function tests (Creatinine/eGFR)",
       "Screen for chronic diseases or acute bleeding"]

/-- The `build_report` from `predict.py`. -/
def build_report (row : Row) : String :=
  if pyIntOfValue ((rowLookup row "Predicted_Anemia").getD .nan) = 0 then
    "Result: Not Anemic ✅\nNote: A healthy lifestyle, adequate hydration, and periodic CBC tests as advised by your doctor are recommended."
  else
    let pr := _anemia_phenotype row
    let hgb := _val row "HGB"
    let mcv := _val row "MCV"
    let base_tests :=
      ["Repeat CBC for confirmation",
       "Ferritin + Serum Iron + TIBC/Transferrin Saturation",
       "CRP/ESR if inflammatory/chronic disease is suspected"]
    let extra_tests := mcvExtraTests mcv
    let lifestyle :=
      ["Increase iron-rich foods: liver, red meat, lentils, beans, spinach",
       "Take vitamin C with meals to improve iron absorption",
       "Avoid tea and coffee immediately after iron-rich meals (preferably wait 1-2 hours)"]
    let red_flags :=
      ["Frequent dizziness/fainting, severe shortness of breath, chest pain",
       "Severe drop in hemoglobin",
       "Visible bleeding: bloody vomit, black stools, severe uterine bleeding"]
    let lines :=
      ["Result: Anemia Detected 🩸"]
      ++ (match hgb with | some q => ["Hb: " ++ fmt1 q ++ " g/dL"] | none => [])
      ++ (match mcv with | some q => ["MCV: " ++ fmt1 q ++ " fL"] | none => [])
      ++ ["Expected Classification: " ++ pr.1]
      ++ (if pr.2 ≠ [] then ["Supporting Observations: " ++ String.intercalate "; " pr.2] else [])
      ++ ["\n🔬 Suggested Tests (according to physician's evaluation):"]
      ++ (base_tests ++ extra_tests).map (fun t => "- " ++ t)
      ++ ["\n🍽️ Lifestyle Recommendations:"]
      ++ lifestyle.map (fun t => "- " ++ t)
      ++ ["\n🚩 Red Flags Requiring Urgent Medical Attention:"]
      ++ red_flags.map (fun t => "- " ++ t)
      ++ ["\n⚠️ Important Notice: This is an automated advisory report and does not constitute a final diagnosis. All treatment decisions are the responsibility of the treating physician."]
    String.intercalate "\n" lines

/-- A Python argument passed to `build_report` at a call site. -/
inductive BRArg where
  | row (r : Row)
  | int (n : ℤ)
  | rat (q : ℚ)
deriving DecidableEq, Repr

/-- The `def build_report(row):` declares exactly one positional parameter. -/
def buildReportParamCount : ℕ := 1

/-- Python's function-call protocol for `build_report`: a call whose argument
count differs from the declared parameter count raises `TypeError` before the
body runs.  (A single non-dict argument would instead fail inside the body;
no call site produces one.) -/
def callBuildReport (args : List BRArg) : Except PyError String :=
  if args.length = buildReportParamCount then
    match args with
    | [.row r] => .ok (build_report r)
    | _ => .error (.typeError buildReportParamCount args.length)
  else .error (.typeError buildReportParamCount args.length)

/-- The `pd.DataFrame(list_of_dicts)`: columns are the union of the dict keys in
first-appearance order; a record missing a key contributes NaN. -/
def dataFrameOfRecords (recs : List Row) : DataFrame :=
  let colNames := recs.foldl (fun acc r => acc ++ ((r.map Prod.fst).filter (fun n => !acc.contains n))) []
  { cols := colNames.map (fun n => (n, recs.map (fun r => (rowLookup r n).getD .nan))),
    index := List.range recs.length }

/-- The `df.values`: the row-major matrix of every column, in column order. -/
def valuesMatrix (df : DataFrame) : List (List Value) :=
  (List.range (nRows df)).map (fun i => df.cols.map (fun p => p.2.getD i .nan))

/-- The `df[feats].values`: the row-major matrix of the selected columns, in the
declared feature order. -/
def featureMatrix (df : DataFrame) (feats : List String) : List (List Value) :=
  (List.range (nRows df)).map (fun i => feats.map (fun f => cellD df f i))

/-- The `df.iloc[i]` as a name-to-value dict. -/
def rowAssoc (df : DataFrame) (i : ℕ) : Row :=
  df.cols.map (fun p => (p.1, p.2.getD i .nan))

/-- The loaded model-asset bundle of `CBCPredictionService`.  The trained
classifier and the fitted scaler are opaque artifacts (spec section 1), so
`predict`, `predict_proba` and `transform` are parameters of the model. -/
structure Service where
  predict : List (List Value) → List ℤ
  predict_proba : List (List Value) → List (ℚ × ℚ)
  transform : List (List Value) → List (List Value)
  used_features : List String

/-- The result dict of `predict_single`.  The formatted `"confidence"`
percentage string (a pure rendering of `confidence_raw`) is omitted; no claim
refers to it. -/
structure SingleResult where
  prediction : ℤ
  prediction_label : String
  confidence_raw : ℚ
  probabilities : ℚ × ℚ
  report : Option String
deriving DecidableEq, Repr

/-- The `CBCPredictionService.predict_single` (`ai_service.py` lines 214-240).
After `prepare_dataframe_for_inference` (to which the source passes the
scaler object as the unused `allow_hgb_heuristic` argument), the classifier
receives the prepared DataFrame itself — all of its columns, unscaled; the
scaler's `transform` is never invoked.  With `with_report`, `build_report`
is called with three arguments. -/
def predict_single (svc : Service) (cbc_data : Row) (with_report : Bool) :
    Except PyError SingleResult :=
  match prepare_dataframe_for_inference (dataFrameOfRecords [cbc_data]) svc.used_features with
  | .error e => .error e
  | .ok df =>
    let prediction := (svc.predict (valuesMatrix df)).getD 0 0
    let probs := (svc.predict_proba (valuesMatrix df)).getD 0 (0, 0)
    let confidence := max probs.1 probs.2
    if with_report then
      match callBuildReport [.row cbc_data, .int prediction, .rat confidence] with
      | .error e => .error e
      | .ok rep =>
        .ok { prediction := prediction,
              prediction_label := if prediction = 1 then "Anemia" else "Normal",
              confidence_raw := confidence, probabilities := probs, report := some rep }
    else
      .ok { prediction := prediction,
            prediction_label := if prediction = 1 then "Anemia" else "Normal",
            confidence_raw := confidence, probabilities := probs, report := none }

/-- One element of the `predict_batch` result list.  The `"values"` dict (a
float-rendered echo of the row) and the two formatted probability strings are
pure renderings of `probabilities` and are omitted; no claim refers to them. -/
structure BatchItem where
  row_index : ℕ
  prediction : String
  prediction_code : ℤ
  confidence : String
  probabilities : ℚ × ℚ
  report : Option String
deriving DecidableEq, Repr

/-- The `CBCPredictionService.predict_batch` (`ai_service.py` lines 242-293):
extract the features in declared order, apply the scaler's `transform`, then
the classifier's `predict`/`predict_proba`; one result per row of
`enumerate(zip(predictions, probabilities))`. -/
def predict_batch (svc : Service) (cbc_data_list : List Row) (with_report : Bool) :
    Except PyError (List BatchItem) :=
  match prepare_dataframe_for_inference (dataFrameOfRecords cbc_data_list) svc.used_features with
  | .error e => .error e
  | .ok df_prepared =>
    let X := featureMatrix df_prepared svc.used_features
    let X_scaled := svc.transform X
    let predictions := svc.predict X_scaled
    let probabilities := svc.predict_proba X_scaled
    let pairs := predictions.zip probabilities
    .ok ((List.range pairs.length).map (fun i =>
      let pred := (pairs.getD i (0, (0, 0))).1
      let probs := (pairs.getD i (0, (0, 0))).2
      let row_data := rowAssoc df_prepared i
      { row_index := i,
        prediction := if pred = 1 then "Anemia" else "Normal",
        prediction_code := pred,
        confidence := if max probs.1 probs.2 > mkRat 8 10 then "High" else "Medium",  -- 0.8
        probabilities := probs,
        report :=
          if with_report then
            -- row_data_copy['Predicted_Anemia'] = pred; ['Anemia_Probability'] = probs[1];
            -- this one-argument call matches build_report's declared arity
            some (build_report (rowSet (rowSet row_data "Predicted_Anemia" (.num (pred : ℚ)))
              "Anemia_Probability" (.num probs.2)))
          else none }))

/-- Which parser `read_file_by_extension` dispatches to; the parsers
themselves perform foreign I/O (pandas / pdfplumber / tabula) and are out of
the embedded scope. -/
inductive Dispatch where
  | csv
  | excel
  | pdf
deriving DecidableEq, Repr

/-- The `pathlib.Path(filename).suffix`: in the last path component, the substring
from the last `.`, provided that dot is neither the leading nor the trailing
character; otherwise the empty string. -/
def pySuffix (filename : String) : String :=
  let nm := filename.toList.foldl (fun acc c => if c = '/' then [] else acc ++ [c]) []
  let dotIdxs := (List.range nm.length).filter (fun i => nm.getD i ' ' = '.')
  match dotIdxs.getLast? with
  | none => ""
  | some i => if 0 < i ∧ i + 1 < nm.length then String.mk (nm.drop i) else ""

/-- The `valid_extensions` from `process_csv_upload` (`ai_service.py` line 326). -/
def validExtensions : List String := [".csv", ".xlsx", ".xls", ".pdf"]

/-- The `read_file_by_extension` (`ai_service.py` lines 160-185), up to the
dispatch target. -/
def read_file_by_extension (filename : String) : Except PyError Dispatch :=
  let file_extension := pyLower (pySuffix filename)
  if file_extension = ".csv" then .ok .csv
  else if file_extension = ".xlsx" ∨ file_extension = ".xls" then .ok .excel
  else if file_extension = ".pdf" then .ok .pdf
  else .error (.unsupportedFormat
    ("Unsupported file format: " ++ file_extension ++ ". Supported formats: CSV, XLSX, XLS, PDF"))

/-- The extension gate of `process_csv_upload` (`ai_service.py` lines
324-332): `some msg` models the early `{"success": False, "message": msg}`
return for an invalid extension; `none` means the upload proceeds to
parsing. -/
def processUploadExtensionGate (filename : String) : Option String :=
  let file_extension := pyLower (pySuffix filename)
  if !validExtensions.contains file_extension then
    some ("Invalid file type. Please upload a file with one of these extensions: "
      ++ String.intercalate ", " validExtensions)
  else none

/-- Python `str()` of a cell, used when Parameter-column values become column
labels.  Numeric labels are rendered through `Rat`'s representation; every
claim exercises string-valued labels only. -/
def pyStr (v : Value) : String :=
  match v with
  | .str s => s
  | .nan => "nan"
  | .num q => toString q

/-- The `columns_lower` list of `detect_and_transform_csv` (line 53):
`[str(col).strip().lower() for col in df.columns]`. -/
def lowerNames (df : DataFrame) : List String :=
  (names df).map (fun c => pyLower (pyStrip c))

/-- The Parameter column of `detect_and_transform_csv` (line 58): the column
at the position of the first case-insensitive `parameter` name. -/
def paramColVals (df : DataFrame) : List Value :=
  (df.cols.getD ((lowerNames df).indexOf "parameter") ("", [])).2

/-- The Value column of `detect_and_transform_csv` (line 59). -/
def valueColVals (df : DataFrame) : List Value :=
  (df.cols.getD ((lowerNames df).indexOf "value") ("", [])).2

/-- The `detect_and_transform_csv` (`ai_service.py` lines 43-70): when the
trimmed, lower-cased column names include both `parameter` and `value`, pivot
to a single-row table whose column labels are the Parameter-column values and
whose one data row is the Value column; otherwise pass the table through
unchanged. -/
def detect_and_transform_csv (df : DataFrame) : DataFrame :=
  if (lowerNames df).contains "parameter" && (lowerNames df).contains "value" then
    { cols := ((paramColVals df).zip (valueColVals df)).map (fun pv => (pyStr pv.1, [pv.2])),
      index := [0] }
  else df

/-- Decidable equality for `Except`, so that results of the fallible pipeline
stages can be evaluated on concrete inputs. -/
instance {ε α : Type} [DecidableEq ε] [DecidableEq α] : DecidableEq (Except ε α) := fun a b =>
  match a, b with
  | .error e, .error f => decidable_of_iff (e = f) (by simp)
  | .ok x, .ok y => decidable_of_iff (x = y) (by simp)
  | .error _, .ok _ => isFalse (by simp)
  | .ok _, .error _ => isFalse (by simp)

/-- Row `i` of a DataFrame as a value list, in column order. -/
def rowOf (df : DataFrame) (i : ℕ) : List Value :=
  df.cols.map (fun p => p.2.getD i .nan)

/-- All rows of a DataFrame, in positional order. -/
def rowsOf (df : DataFrame) : List (List Value) :=
  (List.range (nRows df)).map (rowOf df)

/-- The input column that a canonical name resolves to: scan the variants in
declared order and, within each variant, the input columns in input order. -/
def firstMatch (cols : List String) (variants : List String) : Option String :=
  variants.findSome? (fun v => scanCols cols (norm v))

/-- A cell that is not a string (the content of a numeric-dtype column). -/
def isNumOrNan (v : Value) : Bool :=
  match v with
  | .str _ => false
  | _ => true

/-- The required-feature list of the shipped model asset
(`{RBC,HGB,PCV,MCV,MCH,MCHC,TLC,PLT}`, spec section 6). -/
def feats8 : List String := ["RBC", "HGB", "PCV", "MCV", "MCH", "MCHC", "TLC", "PLT"]

/-- A canonical single sample used to instantiate the theorems. -/
def sampleA : Row :=
  [("RBC", .num 1), ("HGB", .num 9), ("PCV", .num 30), ("MCV", .num 70),
   ("MCH", .num 25), ("MCHC", .num 30), ("TLC", .num 6), ("PLT", .num 200)]

/-- A concrete instance of the opaque model-asset bundle: the classifier
labels a row by its first entry, and the scaler replaces every numeric entry
by 100.  Any such triple is admissible for the opaque `predict` /
`predict_proba` / `transform` interface of spec section 1. -/
def svcA : Service :=
  { predict := fun X => X.map (fun r =>
      match r.getD 0 .nan with
      | .num q => if 5 < q then 1 else 0
      | _ => 0),
    predict_proba := fun X => X.map (fun _ => (mkRat 1 2, mkRat 1 2)),
    transform := fun X => X.map (fun r => r.map (fun v =>
      match v with | .num _ => .num 100 | w => w)),
    used_features := feats8 }

/-- The batch result of `svcA` on `[sampleA]` (its scaled first feature is
100, so the classifier answers 1 = Anemia). -/
def c1OutLit : List BatchItem :=
  [{ row_index := 0, prediction := "Anemia", prediction_code := 1, confidence := "Medium",
     probabilities := (mkRat 1 2, mkRat 1 2), report := none }]

/-- A one-row table whose RBC cell is the unparseable string `"abc"`. -/
def c2exDf : DataFrame :=
  { cols := [("RBC", [.str "abc"]), ("HGB", [.num 9]), ("PCV", [.num 30]), ("MCV", [.num 70]),
             ("MCH", [.num 25]), ("MCHC", [.num 30]), ("TLC", [.num 6]), ("PLT", [.num 250])],
    index := [0] }

/-- A one-row table missing the `PLT` column entirely. -/
def c6exDf : DataFrame :=
  { cols := [("RBC", [.num 4]), ("HGB", [.num 13]), ("PCV", [.num 40]), ("MCV", [.num 85]),
             ("MCH", [.num 28]), ("MCHC", [.num 33]), ("TLC", [.num 7])],
    index := [0] }

/-- A one-row table whose only row has a missing required value (RBC). -/
def c7exDf : DataFrame :=
  { cols := [("RBC", [.nan]), ("HGB", [.num 13]), ("PCV", [.num 40]), ("MCV", [.num 85]),
             ("MCH", [.num 28]), ("MCHC", [.num 33]), ("TLC", [.num 7]), ("PLT", [.num 250])],
    index := [0] }

/-- A canonical one-row table with an extra `years` column (an alias of
`Age`). -/
def c10exDf : DataFrame :=
  { cols := [("RBC", [.num 4]), ("HGB", [.num 13]), ("PCV", [.num 40]), ("MCV", [.num 85]),
             ("MCH", [.num 28]), ("MCHC", [.num 33]), ("TLC", [.num 7]), ("PLT", [.num 250]),
             ("years", [.num 30])],
    index := [0] }

/-- A fully canonical one-row table (no alias columns). -/
def c10okDf : DataFrame :=
  { cols := [("RBC", [.num 4]), ("HGB", [.num 13]), ("PCV", [.num 40]), ("MCV", [.num 85]),
             ("MCH", [.num 28]), ("MCHC", [.num 33]), ("TLC", [.num 7]), ("PLT", [.num 250])],
    index := [0] }

/-- The vertical Parameter/Value table of the spec's pivot example. -/
def vertExDf : DataFrame :=
  { cols := [("Parameter", [.str "RBC", .str "HGB"]), ("Value", [.str "4.5", .str "13.5"])],
    index := [0, 1] }

/-! ### General list lemmas -/

lemma getD_map_of_lt {α β : Type} (f : α → β) (l : List α) {i : ℕ} (h : i < l.length)
    (d : β) (d' : α) : (l.map f).getD i d = f (l.getD i d') := by
  rw [List.getD_eq_getElem?_getD, List.getElem?_map, List.getElem?_eq_getElem (by simpa using h),
    List.getD_eq_getElem?_getD, List.getElem?_eq_getElem h]
  simp

lemma range_map_getD {α β : Type} (l : List α) (d : α) (f : α → β) :
    (List.range l.length).map (fun i => f (l.getD i d)) = l.map f := by
  induction l with
  | nil => rfl
  | cons a t ih =>
    rw [List.length_cons, List.range_succ_eq_map, List.map_cons, List.map_map]
    have hcomp : ((fun i => f ((a :: t).getD i d)) ∘ Nat.succ) = fun i => f (t.getD i d) := by
      funext i; rfl
    rw [hcomp, ih]
    rfl

lemma length_le_one_of_nodup_of_all_eq {α : Type} {l : List α} (hn : l.Nodup)
    (h : ∀ x ∈ l, ∀ y ∈ l, x = y) : l.length ≤ 1 := by
  match l with
  | [] => simp
  | [x] => simp
  | x :: y :: t =>
    exfalso
    have hxy : x = y := h x (by simp) y (by simp)
    have := List.nodup_cons.mp hn
    exact this.1 (hxy ▸ List.mem_cons_self y t)

/-! ### Name preservation through the normalization stages -/

lemma names_sexStep (df : DataFrame) : names (sexStep df) = names df := by
  unfold sexStep
  split
  · simp only [names, List.map_map]
    apply List.map_congr_left
    intro p _
    by_cases h : p.1 = "Sex" <;> simp [h]
  · rfl

lemma names_numericStep (df : DataFrame) : names (numericStep df) = names df := by
  simp only [names, numericStep, List.map_map]
  apply List.map_congr_left
  intro p _
  by_cases h : p.1 = "Diagnosis" <;> simp [h]

lemma names_transformSteps (df : DataFrame) :
    names (transformSteps df) = names (renameStep df) := by
  unfold transformSteps
  rw [names_numericStep, names_sexStep]

/-! ### Behaviour of the dropna / reset-index stage -/

lemma nRows_resetIndex (df : DataFrame) : nRows (resetIndex df) = nRows df := by
  simp [nRows, resetIndex]

lemma nRows_selectRows (df : DataFrame) (idxs : List ℕ) :
    nRows (selectRows df idxs) = idxs.length := by
  simp [nRows, selectRows]

lemma rowOf_selectRows (df : DataFrame) (idxs : List ℕ) {j : ℕ} (hj : j < idxs.length) :
    rowOf (selectRows df idxs) j = rowOf df (idxs.getD j 0) := by
  unfold rowOf selectRows
  simp only [List.map_map]
  apply List.map_congr_left
  intro p _
  exact getD_map_of_lt _ idxs hj _ 0

lemma rowsOf_reset_select (df : DataFrame) (idxs : List ℕ) :
    rowsOf (resetIndex (selectRows df idxs)) = idxs.map (rowOf df) := by
  unfold rowsOf
  rw [nRows_resetIndex, nRows_selectRows]
  have hcong : ∀ j ∈ List.range idxs.length,
      rowOf (resetIndex (selectRows df idxs)) j = rowOf df (idxs.getD j 0) := by
    intro j hj
    rw [List.mem_range] at hj
    have hre : rowOf (resetIndex (selectRows df idxs)) j = rowOf (selectRows df idxs) j := rfl
    rw [hre]
    exact rowOf_selectRows df idxs hj
  rw [List.map_congr_left hcong]
  exact range_map_getD idxs 0 (rowOf df)

/-! ### Lemmas about the `errors='ignore'` numeric coercion -/

lemma toNumericColumn_eq_none {col : List Value}
    (h : ∃ v ∈ col, toNumericCell v = none) : toNumericColumn col = none := by
  induction col with
  | nil => simp at h
  | cons v t ih =>
    rcases h with ⟨x, hx, hfail⟩
    rcases List.mem_cons.mp hx with rfl | hxt
    · simp [toNumericColumn, hfail]
    · have ht := ih ⟨x, hxt, hfail⟩
      cases hv : toNumericCell v <;> simp [toNumericColumn, hv, ht]

end CBC

namespace CBC

/-! ### Claim theorems -/

/-- C5: for a sample predicted anemic, the phenotype is a total function of
MCV with strict, non-overlapping boundaries — `MCV < 80` microcytic,
`MCV > 100` macrocytic, `80 ≤ MCV ≤ 100` normocytic — a missing MCV leaves
the phenotype undetermined (Arabic "غير محدد") with no MCV-specific extra
tests, and independently `MCHC < 32` appends the hypochromia hint and
`RDW > 14.5` appends the elevated-RDW hint when those values are present. -/
theorem c5_phenotype_rules (row : Row) :
    (∀ q, _val row "MCV" = some q →
        ((q < 80 → (_anemia_phenotype row).1 = "Microcytic Anemia (often iron deficiency)")
        ∧ (100 < q → (_anemia_phenotype row).1
            = "Macrocytic Anemia (may indicate B12/folate deficiency or other causes)")
        ∧ (80 ≤ q → q ≤ 100 → (_anemia_phenotype row).1
            = "Normocytic Anemia (may be related to chronic disease/acute bleeding/kidney issues)")))
    ∧ (_val row "MCV" = none →
        (_anemia_phenotype row).1 = "غير محدد" ∧ mcvExtraTests (_val row "MCV") = [])
    ∧ (∀ q, _val row "MCHC" = some q → q < 32 →
        "Hypochromia (supports iron deficiency)" ∈ (_anemia_phenotype row).2)
    ∧ (∀ q, _val row "RDW" = some q → mkRat 145 10 < q →
        "Elevated RDW → significant variation in cell size" ∈ (_anemia_phenotype row).2) := by
  refine ⟨fun q hq => ⟨fun h => ?_, fun h => ?_, fun h1 h2 => ?_⟩,
    fun hq => ⟨?_, ?_⟩, fun q hq hlt => ?_, fun q hq hgt => ?_⟩
  · simp [_anemia_phenotype, hq, h]
  · have h80 : ¬ q < 80 := by
      push_neg
      calc (80 : ℚ) ≤ 100 := by norm_num
        _ ≤ q := le_of_lt h
    simp [_anemia_phenotype, hq, h80, h]
  · simp [_anemia_phenotype, hq, not_lt.mpr h1, not_lt.mpr h2]
  · simp [_anemia_phenotype, hq]
  · simp [mcvExtraTests, hq]
  · simp only [_anemia_phenotype, hq]
    rw [if_pos hlt]
    exact List.mem_append_left _ (List.mem_singleton_self _)
  · simp only [_anemia_phenotype, hq]
    rw [if_pos hgt]
    exact List.mem_append_right _ (List.mem_singleton_self _)

/-- Witness for C5 at the spec's boundary inputs: MCV 79.9 is microcytic,
80 and 100 are normocytic, 100.1 is macrocytic; MCHC 30 yields the
hypochromia hint and RDW 15 the elevated-RDW hint; a missing MCV leaves the
phenotype undetermined with no extra tests. -/
theorem c5_phenotype_rules_witness :
    (_anemia_phenotype [("MCV", Value.num (mkRat 799 10))]).1
      = "Microcytic Anemia (often iron deficiency)"
    ∧ (_anemia_phenotype [("MCV", Value.num 80)]).1
      = "Normocytic Anemia (may be related to chronic disease/acute bleeding/kidney issues)"
    ∧ (_anemia_phenotype [("MCV", Value.num 100)]).1
      = "Normocytic Anemia (may be related to chronic disease/acute bleeding/kidney issues)"
    ∧ (_anemia_phenotype [("MCV", Value.num (mkRat 1001 10))]).1
      = "Macrocytic Anemia (may indicate B12/folate deficiency or other causes)"
    ∧ (_anemia_phenotype [("HGB", Value.num 9)]).1 = "غير محدد"
    ∧ mcvExtraTests (_val [("HGB", Value.num 9)] "MCV") = []
    ∧ "Hypochromia (supports iron deficiency)"
      ∈ (_anemia_phenotype [("MCHC", Value.num 30), ("RDW", Value.num 15)]).2
    ∧ "Elevated RDW → significant variation in cell size"
      ∈ (_anemia_phenotype [("MCHC", Value.num 30), ("RDW", Value.num 15)]).2 :=
  ⟨((c5_phenotype_rules [("MCV", Value.num (mkRat 799 10))]).1 (mkRat 799 10)
      (by decide)).1 (by decide),
   ((c5_phenotype_rules [("MCV", Value.num 80)]).1 80 (by decide)).2.2 (by decide) (by decide),
   ((c5_phenotype_rules [("MCV", Value.num 100)]).1 100 (by decide)).2.2 (by decide) (by decide),
   ((c5_phenotype_rules [("MCV", Value.num (mkRat 1001 10))]).1 (mkRat 1001 10)
      (by decide)).2.1 (by decide),
   ((c5_phenotype_rules [("HGB", Value.num 9)]).2.1 (by decide)).1,
   ((c5_phenotype_rules [("HGB", Value.num 9)]).2.1 (by decide)).2,
   (c5_phenotype_rules [("MCHC", Value.num 30), ("RDW", Value.num 15)]).2.2.1 30
      (by decide) (by decide),
   (c5_phenotype_rules [("MCHC", Value.num 30), ("RDW", Value.num 15)]).2.2.2 15
      (by decide) (by decide)⟩

/-- C6: schema normalization fails with the missing-columns `SchemaError`
exactly when, after alias renaming, some required feature is absent as a
column name, and the error lists exactly the absent required features (in
declared feature order). -/
theorem c6_missing_columns (raw : DataFrame) (uf : List String) (m : List String) :
    prepare_dataframe_for_inference raw uf = .error (.schemaError m)
      ↔ (m = uf.filter (fun c => !(names (renameStep raw)).contains c) ∧ m ≠ []) := by
  have hm : missingFeatures (transformSteps raw) uf
      = uf.filter (fun c => !(names (renameStep raw)).contains c) := by
    unfold missingFeatures
    rw [names_transformSteps]
  simp only [prepare_dataframe_for_inference]
  rw [hm]
  split_ifs with h1 h2
  · constructor
    · intro he
      have hfm : uf.filter (fun c => !(names (renameStep raw)).contains c) = m := by
        simpa using he
      exact ⟨hfm.symm, hfm ▸ h1⟩
    · rintro ⟨rfl, -⟩
      rfl
  · have h1' := not_ne_iff.mp h1
    constructor
    · intro he
      exact absurd he (by simp)
    · rintro ⟨hm2, hne⟩
      exact absurd (hm2.trans h1') hne
  · have h1' := not_ne_iff.mp h1
    constructor
    · intro he
      exact absurd he (by simp)
    · rintro ⟨hm2, hne⟩
      exact absurd (hm2.trans h1') hne

/-- Witness for C6: a table missing only `PLT` fails with a `SchemaError`
naming exactly `["PLT"]`. -/
theorem c6_missing_columns_witness :
    prepare_dataframe_for_inference c6exDf feats8 = .error (.schemaError ["PLT"]) :=
  (c6_missing_columns c6exDf feats8 ["PLT"]).mpr ⟨by decide, by decide⟩

/-- C7: once the required columns are present, normalization drops exactly
the rows with a missing value in some required feature (surviving rows keep
their values unchanged, in order), fails with `EmptyResultError` precisely
when no row survives, and on success resets the index to the dense 0-based
range. -/
theorem c7_row_drop (raw : DataFrame) (uf : List String)
    (h : missingFeatures (transformSteps raw) uf = []) :
    (prepare_dataframe_for_inference raw uf = .error .emptyResultError
      ↔ keepIdx (transformSteps raw) uf = [])
    ∧ (∀ out, prepare_dataframe_for_inference raw uf = .ok out →
        out.index = List.range (keepIdx (transformSteps raw) uf).length
        ∧ rowsOf out = (keepIdx (transformSteps raw) uf).map (rowOf (transformSteps raw))) := by
  simp only [prepare_dataframe_for_inference]
  rw [h]
  simp only [ne_eq, not_true_eq_false, if_false, reduceIte]
  have hn : nRows (resetIndex (selectRows (transformSteps raw) (keepIdx (transformSteps raw) uf)))
      = (keepIdx (transformSteps raw) uf).length := by
    rw [nRows_resetIndex, nRows_selectRows]
  constructor
  · split_ifs with h0
    · simp only [true_iff]
      rw [hn] at h0
      exact List.length_eq_zero.mp h0
    · constructor
      · intro he
        exact absurd he (by simp)
      · intro hk
        rw [hn, hk] at h0
        simp at h0
  · intro out hout
    -- `split_ifs` discharges the `nRows = 0` branch, whose hypothesis
    -- `error = ok` is impossible
    split_ifs at hout with h0
    have hdf : resetIndex (selectRows (transformSteps raw) (keepIdx (transformSteps raw) uf))
        = out := Except.ok.inj hout
    subst hdf
    refine ⟨?_, rowsOf_reset_select _ _⟩
    simp [resetIndex, selectRows]

/-- Witness for C7 (the spec's all-rows-missing scenario): a table whose
single row has NaN in a required feature fails with `EmptyResultError`. -/
theorem c7_row_drop_witness :
    prepare_dataframe_for_inference c7exDf feats8 = .error .emptyResultError :=
  (c7_row_drop c7exDf feats8 (by decide)).1.mpr (by decide)

/-- C2 counterexample: a required-feature cell holding the unparseable string
`"abc"` does not become missing — the coercion is `errors='ignore'`, so the
whole table (string included) passes through and the row is not dropped; the
claimed `errors='coerce'` behaviour would instead have yielded
`EmptyResultError` here. -/
theorem c2_ignore_counterexample :
    parseNum "abc" = none
    ∧ prepare_dataframe_for_inference c2exDf feats8 = .ok c2exDf
    ∧ cellD c2exDf "RBC" 0 = Value.str "abc" := by decide

/-- C2 amended: a non-`Diagnosis` column is converted to numeric only when
every one of its values parses; a column containing any unparseable value is
returned entirely unchanged — so an unparseable required-feature cell keeps
its original string and is not treated as missing.  In a column that does
fully parse, the cells pandas reads as NaN (the empty string and the
`float()` NaN spellings) do become missing. -/
theorem c2_ignore_coercion (col : List Value) :
    ((∃ v ∈ col, toNumericCell v = none) → toNumericIgnore col = col)
    ∧ (∀ parsed, toNumericColumn col = some parsed → toNumericIgnore col = parsed)
    ∧ toNumericIgnore [Value.str "", Value.str "nan", Value.str "4.5"]
      = [Value.nan, Value.nan, Value.num (mkRat 9 2)] := by
  refine ⟨fun h => ?_, fun parsed hp => ?_, by decide⟩
  · unfold toNumericIgnore
    rw [toNumericColumn_eq_none h]
  · unfold toNumericIgnore
    rw [hp]

/-- Witness for C2's amended statement: a column containing `"abc"` passes
through `to_numeric(errors='ignore')` unchanged. -/
theorem c2_ignore_coercion_witness :
    toNumericIgnore [Value.str "abc", Value.num 3] = [Value.str "abc", Value.num 3] :=
  (c2_ignore_coercion [Value.str "abc", Value.num 3]).1 ⟨Value.str "abc", by decide, by decide⟩

/-! ### Lemmas about alias resolution -/

lemma contains_iff_mem {l : List String} {a : String} : l.contains a = true ↔ a ∈ l := by
  simp [List.contains_iff_exists_mem_beq]

lemma snd_mem_dictInsert (d : List (String × String)) (k v : String) :
    v ∈ (dictInsert d k v).map Prod.snd := by
  unfold dictInsert
  split_ifs with h
  · rcases List.any_eq_true.mp h with ⟨p, hp, hpk⟩
    have hpk' : p.1 = k := by simpa using hpk
    have hmem : (k, v) ∈ d.map (fun q => if q.1 = k then (k, v) else q) := by
      have hmap := List.mem_map_of_mem (fun q => if q.1 = k then (k, v) else q) hp
      rw [show ((fun q => if q.1 = k then (k, v) else q) p) = (k, v) by simp [hpk']] at hmap
      exact hmap
    exact List.mem_map_of_mem Prod.snd hmem
  · simp

lemma mem_dictInsert {x : String × String} {d : List (String × String)} {k v : String}
    (hx : x ∈ dictInsert d k v) : x ∈ d ∨ x = (k, v) := by
  unfold dictInsert at hx
  split_ifs at hx with h
  · rcases List.mem_map.mp hx with ⟨p, hp, hpe⟩
    by_cases hk : p.1 = k
    · rw [if_pos hk] at hpe
      right
      exact hpe.symm
    · rw [if_neg hk] at hpe
      left
      exact hpe ▸ hp
  · rcases List.mem_append.mp hx with h1 | h1
    · left
      exact h1
    · right
      simpa using h1

lemma fst_mem_dictInsert {y : String} {d : List (String × String)} {k v : String}
    (hy : y ∈ (dictInsert d k v).map Prod.fst) : y ∈ d.map Prod.fst ∨ y = k := by
  rcases List.mem_map.mp hy with ⟨x, hx, rfl⟩
  rcases mem_dictInsert hx with h1 | h1
  · left
    exact List.mem_map_of_mem _ h1
  · right
    rw [h1]

lemma keys_nodup_dictInsert {d : List (String × String)} (hn : (d.map Prod.fst).Nodup)
    (k v : String) : ((dictInsert d k v).map Prod.fst).Nodup := by
  unfold dictInsert
  split_ifs with h
  · have hkeys : (d.map (fun p => if p.1 = k then (k, v) else p)).map Prod.fst
        = d.map Prod.fst := by
      rw [List.map_map]
      apply List.map_congr_left
      intro p _
      by_cases hk : p.1 = k <;> simp [hk]
    rw [hkeys]
    exact hn
  · rw [List.map_append]
    refine List.Nodup.append hn (by simp) ?_
    intro a ha hb
    have hak : a = k := by simpa using hb
    rcases List.mem_map.mp ha with ⟨p, hp, hpk⟩
    have hany : (d.any fun q => q.1 = k) = true :=
      List.any_eq_true.mpr ⟨p, hp, by simp [hpk, hak]⟩
    exact absurd hany h

lemma addVariants_spec (cols : List String) (std : String) (vs : List String)
    (d : List (String × String)) (h : std ∉ d.map Prod.snd) :
    addVariants cols std vs d =
      match firstMatch cols vs with
      | none => d
      | some c => dictInsert d c std := by
  induction vs with
  | nil => simp [addVariants, firstMatch]
  | cons v vs ih =>
    unfold addVariants
    cases hscan : scanCols cols (norm v) with
    | some c =>
      simp only [hscan]
      rw [if_pos (contains_iff_mem.mpr (snd_mem_dictInsert d c std))]
      simp [firstMatch, List.findSome?_cons, hscan]
    | none =>
      simp only [hscan]
      rw [if_neg (fun hc => h (contains_iff_mem.mp hc))]
      rw [ih]
      simp [firstMatch, List.findSome?_cons, hscan]

lemma mem_addVariants {x : String × String} (cols : List String) (std : String)
    (vs : List String) {d : List (String × String)}
    (hx : x ∈ addVariants cols std vs d) : x ∈ d ∨ x.2 = std := by
  induction vs generalizing d with
  | nil => exact Or.inl hx
  | cons v vs ih =>
    unfold addVariants at hx
    cases hscan : scanCols cols (norm v) with
    | some c =>
      simp only [hscan] at hx
      split_ifs at hx with hcontains
      · rcases mem_dictInsert hx with h1 | h1
        · exact Or.inl h1
        · right
          rw [h1]
      · rcases ih hx with h1 | h1
        · rcases mem_dictInsert h1 with h2 | h2
          · exact Or.inl h2
          · right
            rw [h2]
        · exact Or.inr h1
    | none =>
      simp only [hscan] at hx
      split_ifs at hx with hcontains
      · exact Or.inl hx
      · exact ih hx

lemma snd_mem_addVariants {s : String} (cols : List String) (std : String)
    (vs : List String) {d : List (String × String)}
    (hs : s ∈ (addVariants cols std vs d).map Prod.snd) :
    s ∈ d.map Prod.snd ∨ s = std := by
  rcases List.mem_map.mp hs with ⟨x, hx, rfl⟩
  rcases mem_addVariants cols std vs hx with h1 | h1
  · left
    exact List.mem_map_of_mem _ h1
  · right
    exact h1

lemma fst_mem_addVariants {x : String × String} (cols : List String) (std : String)
    (vs : List String) {d : List (String × String)}
    (hx : x ∈ addVariants cols std vs d) :
    x.1 ∈ d.map Prod.fst ∨ ∃ v ∈ vs, scanCols cols (norm v) = some x.1 := by
  induction vs generalizing d with
  | nil => exact Or.inl (List.mem_map_of_mem _ hx)
  | cons v vs ih =>
    unfold addVariants at hx
    cases hscan : scanCols cols (norm v) with
    | some c =>
      simp only [hscan] at hx
      split_ifs at hx with hcontains
      · rcases mem_dictInsert hx with h1 | h1
        · exact Or.inl (List.mem_map_of_mem _ h1)
        · right
          exact ⟨v, List.mem_cons_self _ _, by rw [h1]; exact hscan⟩
      · rcases ih hx with h1 | h1
        · rcases fst_mem_dictInsert h1 with h2 | h2
          · exact Or.inl h2
          · right
            exact ⟨v, List.mem_cons_self _ _, by rw [h2]; exact hscan⟩
        · rcases h1 with ⟨v', hv', hsc⟩
          exact Or.inr ⟨v', List.mem_cons_of_mem _ hv', hsc⟩
    | none =>
      simp only [hscan] at hx
      split_ifs at hx with hcontains
      · exact Or.inl (List.mem_map_of_mem _ hx)
      · rcases ih hx with h1 | ⟨v', hv', hsc⟩
        · exact Or.inl h1
        · exact Or.inr ⟨v', List.mem_cons_of_mem _ hv', hsc⟩

lemma keys_nodup_addVariants (cols : List String) (std : String) (vs : List String)
    {d : List (String × String)} (hn : (d.map Prod.fst).Nodup) :
    ((addVariants cols std vs d).map Prod.fst).Nodup := by
  induction vs generalizing d with
  | nil => exact hn
  | cons v vs ih =>
    unfold addVariants
    cases hscan : scanCols cols (norm v) with
    | some c =>
      simp only [hscan]
      split_ifs with hcontains
      · exact keys_nodup_dictInsert hn c std
      · exact ih (keys_nodup_dictInsert hn c std)
    | none =>
      simp only [hscan]
      split_ifs with hcontains
      · exact hn
      · exact ih hn

lemma mem_buildRenameMapAux {x : String × String} (cols : List String)
    (al : List (String × List String)) {d : List (String × String)}
    (hx : x ∈ buildRenameMapAux cols al d) : x ∈ d ∨ x.2 ∈ al.map Prod.fst := by
  induction al generalizing d with
  | nil => exact Or.inl hx
  | cons p rest ih =>
    obtain ⟨std, vs⟩ := p
    unfold buildRenameMapAux at hx
    rcases ih hx with h1 | h1
    · rcases mem_addVariants cols std vs h1 with h2 | h2
      · exact Or.inl h2
      · right
        simp [h2]
    · right
      simp only [List.map_cons]
      exact List.mem_cons_of_mem _ h1

lemma fst_mem_buildRenameMapAux {y : String} (cols : List String)
    (al : List (String × List String)) {d : List (String × String)}
    (hy : y ∈ (buildRenameMapAux cols al d).map Prod.fst) :
    y ∈ d.map Prod.fst
    ∨ ∃ p ∈ al, ∃ v ∈ p.2, scanCols cols (norm v) = some y := by
  induction al generalizing d with
  | nil => exact Or.inl hy
  | cons p rest ih =>
    obtain ⟨std, vs⟩ := p
    unfold buildRenameMapAux at hy
    rcases ih hy with h1 | h1
    · rcases List.mem_map.mp h1 with ⟨x, hx, rfl⟩
      rcases fst_mem_addVariants cols std vs hx with h2 | ⟨v, hv, hsc⟩
      · exact Or.inl h2
      · exact Or.inr ⟨(std, vs), List.mem_cons_self _ _, v, hv, hsc⟩
    · rcases h1 with ⟨p', hp', v, hv, hsc⟩
      exact Or.inr ⟨p', List.mem_cons_of_mem _ hp', v, hv, hsc⟩

lemma keys_nodup_buildRenameMapAux (cols : List String)
    (al : List (String × List String)) {d : List (String × String)}
    (hn : (d.map Prod.fst).Nodup) :
    ((buildRenameMapAux cols al d).map Prod.fst).Nodup := by
  induction al generalizing d with
  | nil => exact hn
  | cons p rest ih =>
    obtain ⟨std, vs⟩ := p
    unfold buildRenameMapAux
    exact ih (keys_nodup_addVariants cols std vs hn)

lemma buildRenameMapAux_assigned (cols : List String) (al : List (String × List String)) :
    ∀ (d : List (String × String)),
      (al.map Prod.fst).Nodup →
      (∀ s ∈ d.map Prod.snd, s ∉ al.map Prod.fst) →
      ∀ std vs, (std, vs) ∈ al → ∀ c, (c, std) ∈ buildRenameMapAux cols al d →
        firstMatch cols vs = some c := by
  induction al with
  | nil =>
    intro d _ _ std vs h
    simp at h
  | cons p rest ih =>
    obtain ⟨std0, vs0⟩ := p
    intro d hnd hdisj std vs hmem c hc
    have h0 : std0 ∉ d.map Prod.snd := fun hs => hdisj std0 hs (by simp)
    have hnd' : (std0 :: rest.map Prod.fst).Nodup := by simpa using hnd
    have hstd0rest : std0 ∉ rest.map Prod.fst := (List.nodup_cons.mp hnd').1
    unfold buildRenameMapAux at hc
    rcases List.mem_cons.mp hmem with heq | hrest
    · injection heq with he1 he2
      subst he1
      subst he2
      rcases mem_buildRenameMapAux cols rest hc with h1 | h1
      · rw [addVariants_spec cols std vs d h0] at h1
        cases hfm : firstMatch cols vs with
        | none =>
          rw [hfm] at h1
          exact absurd (List.mem_map_of_mem Prod.snd h1) h0
        | some c0 =>
          rw [hfm] at h1
          rcases mem_dictInsert h1 with h2 | h2
          · exact absurd (List.mem_map_of_mem Prod.snd h2) h0
          · have hcc : c = c0 := congrArg Prod.fst h2
            rw [hcc]
      · exact absurd h1 hstd0rest
    · refine ih (addVariants cols std0 vs0 d) (List.nodup_cons.mp hnd').2 ?_ std vs hrest c hc
      intro s hs hsr
      rcases snd_mem_addVariants cols std0 vs0 hs with h2 | h2
      · exact hdisj s h2 (List.mem_cons_of_mem _ hsr)
      · subst h2
        exact hstd0rest hsr

/-- C3 counterexample: with input columns `["WBC", "TLC"]` both columns match
the canonical name `TLC` (via different variants), but the mapping is given
to `"TLC"` — the column matching the earlier declared variant — not to
`"WBC"`, the first matching column in input order as the claim states. -/
theorem c3_tie_counterexample :
    build_rename_map ["WBC", "TLC"] = [("TLC", "TLC")]
    ∧ ("WBC", "TLC") ∉ build_rename_map ["WBC", "TLC"]
    ∧ lookupRename (build_rename_map ["WBC", "TLC"]) "WBC" = "WBC" := by decide

/-- C3 amended: alias resolution is variant-major — a canonical name is
assigned to the column found by scanning its variant list in declared order
and, within one variant, the input columns in input order (`firstMatch`);
ties between two columns matching the same canonical name therefore resolve
by variant declaration order first, and by input column order only between
columns matching the same variant.  Each canonical name claims at most one
input column, and a column matching no variant passes through unrenamed. -/
theorem c3_alias_resolution (cols : List String) :
    (∀ p ∈ ALIASES, ∀ c, (c, p.1) ∈ build_rename_map cols →
        firstMatch cols p.2 = some c)
    ∧ (∀ std : String, ((build_rename_map cols).filter (fun q => q.2 = std)).length ≤ 1)
    ∧ (∀ c : String, (∀ p ∈ ALIASES, ∀ v ∈ p.2, norm c ≠ norm v) →
        lookupRename (build_rename_map cols) c = c) := by
  have hassigned : ∀ p ∈ ALIASES, ∀ c, (c, p.1) ∈ build_rename_map cols →
      firstMatch cols p.2 = some c := by
    intro p hp c hc
    exact buildRenameMapAux_assigned cols ALIASES [] (by decide) (by simp) p.1 p.2
      (Prod.mk.eta ▸ hp) c hc
  refine ⟨hassigned, ?_, ?_⟩
  · intro std
    have hkeysnodup : ((build_rename_map cols).map Prod.fst).Nodup :=
      keys_nodup_buildRenameMapAux cols ALIASES (by simp)
    have hnodup : (build_rename_map cols).Nodup := List.Nodup.of_map _ hkeysnodup
    have hfilternodup : ((build_rename_map cols).filter (fun q => q.2 = std)).Nodup :=
      List.Nodup.sublist (List.filter_sublist _) hnodup
    refine length_le_one_of_nodup_of_all_eq hfilternodup ?_
    intro x hx y hy
    have hx' := List.mem_filter.mp hx
    have hy' := List.mem_filter.mp hy
    have hx2 : x.2 = std := by simpa using hx'.2
    have hy2 : y.2 = std := by simpa using hy'.2
    have hstdmem : std ∈ ALIASES.map Prod.fst := by
      rcases mem_buildRenameMapAux cols ALIASES hx'.1 with h1 | h1
      · simp at h1
      · exact hx2 ▸ h1
    rcases List.mem_map.mp hstdmem with ⟨p, hp, hpf⟩
    have hxin : (x.1, p.1) ∈ build_rename_map cols := by
      rw [hpf, ← hx2, Prod.mk.eta]
      exact hx'.1
    have hyin : (y.1, p.1) ∈ build_rename_map cols := by
      rw [hpf, ← hy2, Prod.mk.eta]
      exact hy'.1
    have hfx := hassigned p hp x.1 hxin
    have hfy := hassigned p hp y.1 hyin
    have hxy1 : x.1 = y.1 := Option.some.inj (hfx.symm.trans hfy)
    have hxy2 : x.2 = y.2 := hx2.trans hy2.symm
    calc x = (x.1, x.2) := (Prod.mk.eta).symm
      _ = (y.1, y.2) := by rw [hxy1, hxy2]
      _ = y := Prod.mk.eta
  · intro c hc
    unfold lookupRename
    have hnone : (build_rename_map cols).find? (fun p => p.1 = c) = none := by
      apply List.find?_eq_none.mpr
      intro p hp hpc
      have hpc' : p.1 = c := by simpa using hpc
      have hkey : p.1 ∈ (build_rename_map cols).map Prod.fst := List.mem_map_of_mem _ hp
      rcases fst_mem_buildRenameMapAux cols ALIASES hkey with h1 | ⟨q, hq, v, hv, hsc⟩
      · simp at h1
      · have hnorm : norm p.1 = norm v := by
          have := List.find?_some hsc
          simpa using this
        exact hc q hq v hv (hpc' ▸ hnorm)
    rw [hnone]

/-- Witness for C3's amended statement: with columns `["WBC", "TLC"]` the
canonical name `TLC` resolves (variant-major) to the column `"TLC"`, and the
unmatched column name `"Foo"` passes through unrenamed. -/
theorem c3_alias_resolution_witness :
    firstMatch ["WBC", "TLC"] ["tlc", "wbc", "white blood cells", "whitebloodcells", "w.b.c"]
      = some "TLC"
    ∧ lookupRename (build_rename_map ["WBC", "TLC"]) "Foo" = "Foo" :=
  ⟨(c3_alias_resolution ["WBC", "TLC"]).1
      ("TLC", ["tlc", "wbc", "white blood cells", "whitebloodcells", "w.b.c"])
      (by decide) "TLC" (by decide),
   (c3_alias_resolution ["WBC", "TLC"]).2.2 "Foo" (by decide)⟩

/-- C8: for every well-formed parsed table, if the trimmed lower-cased column
names contain both `parameter` and `value` the table is pivoted into a
single-row horizontal table whose column names are the Parameter-column
values and whose single data row is the Value column; otherwise the table
passes through completely unchanged. -/
theorem c8_orientation (df : DataFrame)
    (hwf : ∀ p ∈ df.cols, p.2.length = nRows df) :
    (("parameter" ∈ lowerNames df ∧ "value" ∈ lowerNames df) →
        names (detect_and_transform_csv df) = (paramColVals df).map pyStr
        ∧ nRows (detect_and_transform_csv df) = 1
        ∧ rowOf (detect_and_transform_csv df) 0 = valueColVals df)
    ∧ (¬ ("parameter" ∈ lowerNames df ∧ "value" ∈ lowerNames df) →
        detect_and_transform_csv df = df) := by
  have hlen : ∀ s : String, s ∈ lowerNames df →
      ((df.cols.getD ((lowerNames df).indexOf s) ("", [])).2).length = nRows df := by
    intro s hs
    have hidx : (lowerNames df).indexOf s < (lowerNames df).length :=
      List.indexOf_lt_length.mpr hs
    have hidx' : (lowerNames df).indexOf s < df.cols.length := by
      simpa [lowerNames, names] using hidx
    have hmem : df.cols.getD ((lowerNames df).indexOf s) ("", []) ∈ df.cols := by
      rw [List.getD_eq_getElem?_getD, List.getElem?_eq_getElem hidx']
      simp
    exact hwf _ hmem
  constructor
  · rintro ⟨hp, hv⟩
    have hcond : ((lowerNames df).contains "parameter" && (lowerNames df).contains "value")
        = true := by
      rw [Bool.and_eq_true]
      exact ⟨contains_iff_mem.mpr hp, contains_iff_mem.mpr hv⟩
    unfold detect_and_transform_csv
    rw [if_pos hcond]
    have hplen : (paramColVals df).length = nRows df := hlen "parameter" hp
    have hvlen : (valueColVals df).length = nRows df := hlen "value" hv
    refine ⟨?_, rfl, ?_⟩
    · show (((paramColVals df).zip (valueColVals df)).map
          (fun pv => (pyStr pv.1, [pv.2]))).map Prod.fst = (paramColVals df).map pyStr
      rw [List.map_map]
      have hfst : ((paramColVals df).zip (valueColVals df)).map (fun pv => pyStr pv.1)
          = ((paramColVals df).zip (valueColVals df)).map (pyStr ∘ Prod.fst) := rfl
      show ((paramColVals df).zip (valueColVals df)).map (pyStr ∘ Prod.fst)
          = (paramColVals df).map pyStr
      rw [← List.map_map]
      rw [List.map_fst_zip _ _ (by rw [hplen, hvlen])]
    · show (((paramColVals df).zip (valueColVals df)).map
          (fun pv => (pyStr pv.1, [pv.2]))).map (fun p => p.2.getD 0 Value.nan)
        = valueColVals df
      rw [List.map_map]
      have : ((fun p : String × List Value => p.2.getD 0 Value.nan)
          ∘ fun pv : Value × Value => (pyStr pv.1, [pv.2])) = fun pv => pv.2 := by
        funext pv
        rfl
      rw [this]
      have hsnd : ((paramColVals df).zip (valueColVals df)).map (fun pv => pv.2)
          = ((paramColVals df).zip (valueColVals df)).map Prod.snd := rfl
      rw [hsnd, List.map_snd_zip _ _ (by rw [hplen, hvlen])]
  · intro h
    unfold detect_and_transform_csv
    rw [if_neg ?_]
    intro hb
    rw [Bool.and_eq_true] at hb
    exact h ⟨contains_iff_mem.mp hb.1, contains_iff_mem.mp hb.2⟩

/-- Witness for C8 at the spec's pivot example: columns
`["Parameter","Value"]` with rows `[("RBC","4.5"),("HGB","13.5")]` become the
single row `{RBC: "4.5", HGB: "13.5"}`. -/
theorem c8_orientation_witness :
    names (detect_and_transform_csv vertExDf) = ["RBC", "HGB"]
    ∧ nRows (detect_and_transform_csv vertExDf) = 1
    ∧ rowOf (detect_and_transform_csv vertExDf) 0 = [Value.str "4.5", Value.str "13.5"] := by
  obtain ⟨h1, h2, h3⟩ := (c8_orientation vertExDf (by decide)).1 ⟨by decide, by decide⟩
  refine ⟨?_, h2, ?_⟩
  · rw [h1]
    decide
  · rw [h3]
    decide

/-- C9: file ingestion fails with `UnsupportedFormatError` exactly for
filenames whose (lower-cased) extension is outside `.csv/.xlsx/.xls/.pdf`,
with a message naming the supported set (both in `read_file_by_extension` and
in the `process_csv_upload` extension gate, which enumerates
`.csv, .xlsx, .xls, .pdf`); supported extensions dispatch to the matching
parser and never produce this error. -/
theorem c9_extension_dispatch (filename : String) :
    (pyLower (pySuffix filename) ∉ validExtensions
        ↔ read_file_by_extension filename
          = .error (.unsupportedFormat ("Unsupported file format: " ++ pyLower (pySuffix filename)
              ++ ". Supported formats: CSV, XLSX, XLS, PDF")))
    ∧ (pyLower (pySuffix filename) = ".csv" → read_file_by_extension filename = .ok .csv)
    ∧ (pyLower (pySuffix filename) = ".xlsx" ∨ pyLower (pySuffix filename) = ".xls" →
        read_file_by_extension filename = .ok .excel)
    ∧ (pyLower (pySuffix filename) = ".pdf" → read_file_by_extension filename = .ok .pdf)
    ∧ (pyLower (pySuffix filename) ∈ validExtensions →
        ∀ msg, read_file_by_extension filename ≠ .error (.unsupportedFormat msg))
    ∧ (processUploadExtensionGate filename
        = if pyLower (pySuffix filename) ∈ validExtensions then none
          else some "Invalid file type. Please upload a file with one of these extensions: .csv, .xlsx, .xls, .pdf") := by
  have hcsv : pyLower (pySuffix filename) = ".csv" →
      read_file_by_extension filename = .ok .csv := by
    intro h
    simp only [read_file_by_extension]
    rw [if_pos h]
  have hexcel : pyLower (pySuffix filename) = ".xlsx" ∨ pyLower (pySuffix filename) = ".xls" →
      read_file_by_extension filename = .ok .excel := by
    intro h
    have hne : ¬ pyLower (pySuffix filename) = ".csv" := by
      rcases h with h | h <;> rw [h] <;> decide
    simp only [read_file_by_extension]
    rw [if_neg hne, if_pos h]
  have hpdf : pyLower (pySuffix filename) = ".pdf" →
      read_file_by_extension filename = .ok .pdf := by
    intro h
    have hne1 : ¬ pyLower (pySuffix filename) = ".csv" := by rw [h]; decide
    have hne2 : ¬ (pyLower (pySuffix filename) = ".xlsx"
        ∨ pyLower (pySuffix filename) = ".xls") := by
      rw [h]
      decide
    simp only [read_file_by_extension]
    rw [if_neg hne1, if_neg hne2, if_pos h]
  have hok : pyLower (pySuffix filename) ∈ validExtensions →
      ∃ dsp, read_file_by_extension filename = .ok dsp := by
    intro hmem
    have : pyLower (pySuffix filename) = ".csv" ∨ pyLower (pySuffix filename) = ".xlsx"
        ∨ pyLower (pySuffix filename) = ".xls" ∨ pyLower (pySuffix filename) = ".pdf" := by
      simpa [validExtensions] using hmem
    rcases this with h | h | h | h
    · exact ⟨.csv, hcsv h⟩
    · exact ⟨.excel, hexcel (Or.inl h)⟩
    · exact ⟨.excel, hexcel (Or.inr h)⟩
    · exact ⟨.pdf, hpdf h⟩
  refine ⟨⟨?_, ?_⟩, hcsv, hexcel, hpdf, ?_, ?_⟩
  · intro hnot
    have hne : pyLower (pySuffix filename) ≠ ".csv"
        ∧ pyLower (pySuffix filename) ≠ ".xlsx"
        ∧ pyLower (pySuffix filename) ≠ ".xls"
        ∧ pyLower (pySuffix filename) ≠ ".pdf" := by
      simp only [validExtensions] at hnot
      refine ⟨?_, ?_, ?_, ?_⟩ <;> intro h <;> exact hnot (by simp [h])
    simp only [read_file_by_extension]
    rw [if_neg hne.1, if_neg (by rintro (h | h) <;> [exact hne.2.1 h; exact hne.2.2.1 h]),
      if_neg hne.2.2.2]
  · intro he hmem
    rcases hok hmem with ⟨dsp, hdsp⟩
    rw [hdsp] at he
    exact absurd he (by simp)
  · intro hmem msg he
    rcases hok hmem with ⟨dsp, hdsp⟩
    rw [hdsp] at he
    exact absurd he (by simp)
  · by_cases hmem : pyLower (pySuffix filename) ∈ validExtensions
    · rw [if_pos hmem]
      have hb : validExtensions.contains (pyLower (pySuffix filename)) = true :=
        contains_iff_mem.mpr hmem
      simp only [processUploadExtensionGate]
      rw [if_neg (by rw [hb]; simp)]
    · rw [if_neg hmem]
      have hb : validExtensions.contains (pyLower (pySuffix filename)) = false := by
        cases hcb : validExtensions.contains (pyLower (pySuffix filename)) with
        | false => rfl
        | true => exact absurd (contains_iff_mem.mp hcb) hmem
      simp only [processUploadExtensionGate]
      rw [if_pos (by rw [hb]; rfl)]
      decide

/-- Witness for C9: the spec's `.docx` example produces the
unsupported-format error naming the supported set, in both the dispatcher and
the upload gate. -/
theorem c9_extension_dispatch_witness :
    read_file_by_extension "report.docx"
      = .error (.unsupportedFormat
          "Unsupported file format: .docx. Supported formats: CSV, XLSX, XLS, PDF")
    ∧ processUploadExtensionGate "report.docx"
      = some "Invalid file type. Please upload a file with one of these extensions: .csv, .xlsx, .xls, .pdf" := by
  have h := c9_extension_dispatch "report.docx"
  constructor
  · have h1 := h.1.mp (by decide)
    rw [h1]
    decide
  · rw [h.2.2.2.2.2]
    decide

/-- C4 counterexample: the claimed universal TypeError does not hold for
every input dictionary — on the empty sample dict, `predict_single` with
`with_report=True` raises the schema normalization `ValueError` (all required
columns missing) before `build_report` is ever called. -/
theorem c4_report_call_counterexample :
    predict_single svcA [] true = .error (.schemaError feats8)
    ∧ predict_single svcA [] true ≠ .error (.typeError 1 3) := by decide

/-- C4 amended: for every sample dictionary that passes schema normalization,
`predict_single` with `with_report=True` raises `TypeError` before returning
a result: it calls `build_report` with three arguments (sample, prediction,
confidence) while `build_report` declares exactly one positional parameter;
samples failing normalization raise the normalization error instead. -/
theorem c4_report_call (svc : Service) (s : Row)
    (h : ∃ dfp, prepare_dataframe_for_inference (dataFrameOfRecords [s]) svc.used_features
      = .ok dfp) :
    predict_single svc s true = .error (.typeError 1 3) := by
  obtain ⟨dfp, hok⟩ := h
  unfold predict_single
  rw [hok]
  rfl

/-- Witness for C4's amended statement: the canonical sample normalizes
successfully and the report branch then raises `TypeError` (1 parameter
expected, 3 given). -/
theorem c4_report_call_witness : predict_single svcA sampleA true = .error (.typeError 1 3) :=
  c4_report_call svcA sampleA ⟨dataFrameOfRecords [sampleA], by decide⟩

/-- C1 counterexample: an admissible (model, scaler) pair and a canonical
sample for which `predict_single` answers `Normal` while `predict_batch` on
the one-element batch answers `Anemia` — the single-sample entry point feeds
the classifier the unscaled prepared table, the batch entry point the scaled
feature matrix. -/
theorem c1_pipeline_counterexample :
    (predict_single svcA sampleA false).toOption.map SingleResult.prediction_label
      = some "Normal"
    ∧ (predict_batch svcA [sampleA] false).toOption.map (fun l => l.map BatchItem.prediction)
      = some ["Anemia"] := by decide

/-- C1 amended: only `predict_batch` follows the declared pipeline — its
prediction codes are the classifier's output on the scaler-transformed
feature matrix (features in declared order); `predict_single`, by contrast,
never invokes the scaler: its result is unchanged under an arbitrary
replacement of the scaler's `transform`, because it passes the prepared
table directly to the classifier.  The two entry points may therefore
disagree on the same sample. -/
theorem c1_single_vs_batch (svc : Service) (g : List (List Value) → List (List Value))
    (s : Row) (w : Bool) (l : List Row) :
    predict_single { svc with transform := g } s w = predict_single svc s w
    ∧ (∀ out, predict_batch svc l w = .ok out →
        ∃ dfp, prepare_dataframe_for_inference (dataFrameOfRecords l) svc.used_features
            = .ok dfp
          ∧ out.map BatchItem.prediction_code
            = ((svc.predict (svc.transform (featureMatrix dfp svc.used_features))).zip
                (svc.predict_proba (svc.transform (featureMatrix dfp svc.used_features)))).map
                  Prod.fst) := by
  constructor
  · rfl
  · intro out hout
    unfold predict_batch at hout
    cases hprep : prepare_dataframe_for_inference (dataFrameOfRecords l) svc.used_features with
    | error e =>
      rw [hprep] at hout
      exact absurd hout (by simp)
    | ok dfp =>
      rw [hprep] at hout
      refine ⟨dfp, rfl, ?_⟩
      have hout' := Except.ok.inj hout
      rw [← hout']
      rw [List.map_map]
      exact range_map_getD _ (0, (0, 0)) Prod.fst

/-- Witness for C1's amended statement: replacing `svcA`'s scaler by the
identity does not change `predict_single`, and the batch output codes on
`[sampleA]` equal the classifier's output on the scaled feature matrix. -/
theorem c1_single_vs_batch_witness :
    predict_single { svcA with transform := fun X => X } sampleA false
      = predict_single svcA sampleA false
    ∧ c1OutLit.map BatchItem.prediction_code
      = ((svcA.predict (svcA.transform
            (featureMatrix (dataFrameOfRecords [sampleA]) svcA.used_features))).zip
          (svcA.predict_proba (svcA.transform
            (featureMatrix (dataFrameOfRecords [sampleA]) svcA.used_features)))).map
            Prod.fst := by
  refine ⟨(c1_single_vs_batch svcA (fun X => X) sampleA false [sampleA]).1, ?_⟩
  obtain ⟨dfp, hdfp, hcodes⟩ :=
    (c1_single_vs_batch svcA (fun X => X) sampleA false [sampleA]).2 c1OutLit (by decide)
  have h0 : prepare_dataframe_for_inference (dataFrameOfRecords [sampleA]) svcA.used_features
      = .ok (dataFrameOfRecords [sampleA]) := by decide
  rw [h0] at hdfp
  have hd : dataFrameOfRecords [sampleA] = dfp := Except.ok.inj hdfp
  rw [← hd] at hcodes
  exact hcodes

/-! ### Identity lemmas for the normalization stages on already-canonical input -/

lemma toNumericColumn_of_numeric :
    ∀ (col : List Value), (∀ v ∈ col, isNumOrNan v = true) → toNumericColumn col = some col := by
  intro col
  induction col with
  | nil => intro _; rfl
  | cons v t ih =>
    intro h
    have hv := h v (List.mem_cons_self _ _)
    have ht := ih (fun w hw => h w (List.mem_cons_of_mem _ hw))
    cases v with
    | str s => simp [isNumOrNan] at hv
    | num q => simp [toNumericColumn, toNumericCell, ht]
    | nan => simp [toNumericColumn, toNumericCell, ht]

lemma toNumericIgnore_of_numeric {col : List Value}
    (h : ∀ v ∈ col, isNumOrNan v = true) : toNumericIgnore col = col := by
  unfold toNumericIgnore
  rw [toNumericColumn_of_numeric col h]

lemma renameStep_id {df : DataFrame}
    (hren : ∀ n ∈ names df, lookupRename (build_rename_map (names df)) n = n) :
    renameStep df = df := by
  unfold renameStep
  have hcols : df.cols.map (fun p => (lookupRename (build_rename_map (names df)) p.1, p.2))
      = df.cols := by
    have hcong : ∀ p ∈ df.cols, (lookupRename (build_rename_map (names df)) p.1, p.2) = p := by
      intro p hp
      have hm : p.1 ∈ names df := by
        unfold names
        exact List.mem_map_of_mem _ hp
      rw [hren p.1 hm, Prod.mk.eta]
    calc df.cols.map (fun p => (lookupRename (build_rename_map (names df)) p.1, p.2))
        = df.cols.map id := List.map_congr_left hcong
      _ = df.cols := List.map_id _
  rw [hcols]

lemma normalize_sex_id {col : List Value}
    (hnum : ∀ v ∈ col, isNumOrNan v = true)
    (hsex : eqAsSet (distinctNums col) [1, 2] = false) :
    normalize_sex_column col = col := by
  have hobj : isObjectDtype col = false := by
    cases hio : isObjectDtype col with
    | false => rfl
    | true =>
      exfalso
      unfold isObjectDtype at hio
      rcases List.any_eq_true.mp hio with ⟨v, hv, hvtrue⟩
      have hn := hnum v hv
      cases v <;> simp [isNumOrNan] at hn hvtrue
  unfold normalize_sex_column
  rw [if_neg (by rw [hobj]; simp)]
  by_cases h01 : eqAsSet (distinctNums col) [0, 1] = true
  · rw [if_pos h01]
  · rw [if_neg h01, if_neg (by rw [hsex]; simp)]
    unfold toNumericCoerce
    have hcong : ∀ v ∈ col, (toNumericCell v).getD Value.nan = v := by
      intro v hv
      have hn := hnum v hv
      cases v with
      | str s => simp [isNumOrNan] at hn
      | num q => rfl
      | nan => rfl
    calc col.map (fun v => (toNumericCell v).getD Value.nan)
        = col.map id := List.map_congr_left hcong
      _ = col := List.map_id _

lemma sexStep_id {df : DataFrame}
    (hnum : ∀ p ∈ df.cols, p.1 ≠ "Diagnosis" → ∀ v ∈ p.2, isNumOrNan v = true)
    (hsex : ∀ p ∈ df.cols, p.1 = "Sex" → eqAsSet (distinctNums p.2) [1, 2] = false) :
    sexStep df = df := by
  unfold sexStep
  split_ifs with hs
  · have hcols : df.cols.map (fun p =>
        if p.1 = "Sex" then (p.1, normalize_sex_column p.2) else p) = df.cols := by
      have hcong : ∀ p ∈ df.cols,
          (if p.1 = "Sex" then (p.1, normalize_sex_column p.2) else p) = p := by
        intro p hp
        by_cases hps : p.1 = "Sex"
        · rw [if_pos hps,
            normalize_sex_id (hnum p hp (by rw [hps]; decide)) (hsex p hp hps), Prod.mk.eta]
        · rw [if_neg hps]
      calc df.cols.map (fun p => if p.1 = "Sex" then (p.1, normalize_sex_column p.2) else p)
          = df.cols.map id := List.map_congr_left hcong
        _ = df.cols := List.map_id _
    rw [hcols]
  · rfl

lemma numericStep_id {df : DataFrame}
    (hnum : ∀ p ∈ df.cols, p.1 ≠ "Diagnosis" → ∀ v ∈ p.2, isNumOrNan v = true) :
    numericStep df = df := by
  unfold numericStep
  have hcols : df.cols.map (fun p =>
      if p.1 ≠ "Diagnosis" then (p.1, toNumericIgnore p.2) else p) = df.cols := by
    have hcong : ∀ p ∈ df.cols,
        (if p.1 ≠ "Diagnosis" then (p.1, toNumericIgnore p.2) else p) = p := by
      intro p hp
      by_cases hd : p.1 = "Diagnosis"
      · rw [if_neg (by simp [hd])]
      · rw [if_pos hd, toNumericIgnore_of_numeric (hnum p hp hd), Prod.mk.eta]
    calc df.cols.map (fun p => if p.1 ≠ "Diagnosis" then (p.1, toNumericIgnore p.2) else p)
        = df.cols.map id := List.map_congr_left hcong
      _ = df.cols := List.map_id _
  rw [hcols]

lemma keepIdx_all {df : DataFrame} {uf : List String}
    (hwf : ∀ p ∈ df.cols, p.2.length = nRows df)
    (hfeat : ∀ f ∈ uf, f ∈ names df)
    (hcomp : ∀ p ∈ df.cols, p.1 ∈ uf → Value.nan ∉ p.2) :
    keepIdx df uf = List.range (nRows df) := by
  unfold keepIdx
  apply List.filter_eq_self.mpr
  intro i hi
  rw [List.mem_range] at hi
  unfold rowComplete
  rw [List.all_eq_true]
  intro f hf
  simp only [ne_eq, decide_not, Bool.not_eq_true', decide_eq_false_iff_not]
  unfold cellD colVals
  cases hfind : df.cols.find? (fun p => p.1 = f) with
  | none =>
    exfalso
    have hf' := hfeat f hf
    unfold names at hf'
    rcases List.mem_map.mp hf' with ⟨p, hp, hpf⟩
    have hnone := List.find?_eq_none.mp hfind p hp
    simp [hpf] at hnone
  | some p0 =>
    have hp0 : p0 ∈ df.cols := List.mem_of_find?_eq_some hfind
    have hp0f : p0.1 = f := by simpa using List.find?_some hfind
    have hlen : i < p0.2.length := by
      rw [hwf p0 hp0]
      exact hi
    have hmem : p0.2.getD i Value.nan ∈ p0.2 := by
      rw [List.getD_eq_getElem?_getD, List.getElem?_eq_getElem hlen]
      simp
    intro hnan
    exact (hcomp p0 hp0 (by rw [hp0f]; exact hf)) (hnan ▸ hmem)

lemma selectRows_range {df : DataFrame}
    (hwf : ∀ p ∈ df.cols, p.2.length = nRows df)
    (hidx : df.index = List.range (nRows df)) :
    selectRows df (List.range (nRows df)) = df := by
  unfold selectRows
  have hcols : df.cols.map (fun p =>
      (p.1, (List.range (nRows df)).map (fun i => p.2.getD i Value.nan))) = df.cols := by
    have hcong : ∀ p ∈ df.cols,
        (p.1, (List.range (nRows df)).map (fun i => p.2.getD i Value.nan)) = p := by
      intro p hp
      have h1 : (List.range p.2.length).map (fun i => p.2.getD i Value.nan) = p.2 := by
        have h2 := range_map_getD p.2 Value.nan id
        simpa using h2
      rw [show List.range (nRows df) = List.range p.2.length by rw [hwf p hp], h1, Prod.mk.eta]
    calc df.cols.map (fun p =>
          (p.1, (List.range (nRows df)).map (fun i => p.2.getD i Value.nan)))
        = df.cols.map id := List.map_congr_left hcong
      _ = df.cols := List.map_id _
  have hindex : (List.range (nRows df)).map (fun i => df.index.getD i 0) = df.index := by
    rw [hidx]
    have h2 := range_map_getD (List.range (nRows df)) 0 id
    simpa using h2
  rw [hcols, hindex]

lemma resetIndex_id {df : DataFrame} (hidx : df.index = List.range (nRows df)) :
    resetIndex df = df := by
  unfold resetIndex
  have hr : List.range df.index.length = df.index := by
    conv_rhs => rw [hidx]
    rfl
  rw [hr]

/-- C10 counterexample: a table satisfying all of the claim's hypotheses
(all required features present, numerically typed, no missing required
values) but carrying an extra `years` column is not returned identically:
alias renaming turns `years` into `Age`. -/
theorem c10_not_idempotent :
    (∀ f ∈ feats8, f ∈ names c10exDf)
    ∧ (∀ p ∈ c10exDf.cols, ∀ v ∈ p.2, isNumOrNan v = true)
    ∧ (∀ p ∈ c10exDf.cols, p.1 ∈ feats8 → Value.nan ∉ p.2)
    ∧ prepare_dataframe_for_inference c10exDf feats8 ≠ .ok c10exDf
    ∧ (prepare_dataframe_for_inference c10exDf feats8).toOption.map names
      = some ["RBC", "HGB", "PCV", "MCV", "MCH", "MCHC", "TLC", "PLT", "Age"] := by decide

/-- C10 amended: schema normalization is the identity on every non-empty
table whose column names are all left unchanged by alias renaming, whose
non-`Diagnosis` columns are numerically typed, whose `Sex` column (if any)
does not carry exactly the value set `{1, 2}`, whose required feature columns
are all present with no missing values, and whose row index is already the
dense 0-based range. -/
theorem c10_idempotent (df : DataFrame) (uf : List String)
    (hwf : ∀ p ∈ df.cols, p.2.length = nRows df)
    (hidx : df.index = List.range (nRows df))
    (hpos : 0 < nRows df)
    (hren : ∀ n ∈ names df, lookupRename (build_rename_map (names df)) n = n)
    (hnum : ∀ p ∈ df.cols, p.1 ≠ "Diagnosis" → ∀ v ∈ p.2, isNumOrNan v = true)
    (hsex : ∀ p ∈ df.cols, p.1 = "Sex" → eqAsSet (distinctNums p.2) [1, 2] = false)
    (hfeat : ∀ f ∈ uf, f ∈ names df)
    (hcomp : ∀ p ∈ df.cols, p.1 ∈ uf → Value.nan ∉ p.2) :
    prepare_dataframe_for_inference df uf = .ok df := by
  have htrans : transformSteps df = df := by
    unfold transformSteps
    rw [renameStep_id hren, sexStep_id hnum hsex, numericStep_id hnum]
  have hmissing : missingFeatures df uf = [] := by
    apply List.filter_eq_nil_iff.mpr
    intro c hc
    simp [hfeat c hc]
  simp only [prepare_dataframe_for_inference]
  rw [htrans, hmissing]
  rw [if_neg (by simp)]
  rw [keepIdx_all hwf hfeat hcomp, selectRows_range hwf hidx, resetIndex_id hidx]
  rw [if_neg (Nat.pos_iff_ne_zero.mp hpos)]

/-- Witness for C10's amended statement: a fully canonical one-row table
passes through schema normalization identically. -/
theorem c10_idempotent_witness :
    prepare_dataframe_for_inference c10okDf feats8 = .ok c10okDf :=
  c10_idempotent c10okDf feats8 (by decide) (by decide) (by decide) (by decide) (by decide)
    (by decide) (by decide) (by decide)

end CBC
